import Mathlib

/-!
Shallow embedding of the rotation interaction in
`src/ol/interaction/Rotate.js` (class `Rotate`): the azimuth math
(`getAzimut`), the drag-angle computation of `handleDragEvent`, the
pivot computation (`getCenterOfExtent`, `refreshFeaturesPivotes`), and
the press/drag/release state machine (`handleDownEvent`,
`handleDragEvent`, `handleUpEvent`) together with the external
`cartodi.feature_original` snapshot cache.

JavaScript numbers are embedded as real numbers; geometries are lists
of planar coordinates; the `cartodi` caches (plain JS objects keyed by
feature id) are embedded as functions `String → Option _`.
-/

/-- A planar coordinate `(x, y)`, as used throughout `Rotate.js`. -/
abbrev Coordinate : Type := ℝ × ℝ

/-- Embedding of `getAzimut(coordinate1, coordinate2)`
(`Rotate.js` lines 606–637): `dx = x2 - x1`, `dy = y2 - y1`,
`Az2 = atan(dx / dy)`, a four-way strict-sign quadrant dispatch with the
accumulator `azimut` initialised to `0`, and conversion to degrees by
`azimut * 180 / π`.  When no quadrant branch fires (an axis case,
`dx = 0` or `dy = 0`) the initial value `0` is returned, exactly as in
the source where `let azimut = 0` is left untouched. -/
noncomputable def getAzimut (coordinate1 coordinate2 : Coordinate) : ℝ :=
  let x1 := coordinate1.1
  let y1 := coordinate1.2
  let x2 := coordinate2.1
  let y2 := coordinate2.2
  let dx := x2 - x1
  let dy := y2 - y1
  let Az2 := Real.arctan (dx / dy)
  let azimut :=
    if dx > 0 ∧ dy > 0 then Az2
    else if dx > 0 ∧ dy < 0 then Az2 + Real.pi
    else if dx < 0 ∧ dy < 0 then Az2 + Real.pi
    else if dx < 0 ∧ dy > 0 then Az2 + 2 * Real.pi
    else 0
  azimut * 180 / Real.pi

/-- Embedding of the angle computation of `handleDragEvent`
(`Rotate.js` lines 364–368):
`angulo_inicial = getAzimut(centroide, this.coordinate_)`,
`angulo = getAzimut(centroide, newCoordinate)`,
`angulo_final = (angulo_inicial - angulo) * -1`,
`angulo_en_radiane = (angulo_final * π) / -180`. -/
noncomputable def anguloEnRadiane (centroide coordinate newCoordinate : Coordinate) : ℝ :=
  let angulo_inicial := getAzimut centroide coordinate
  let angulo := getAzimut centroide newCoordinate
  let angulo_final := (angulo_inicial - angulo) * (-1)
  (angulo_final * Real.pi) / (-180)

/-- A geometry, embedded as its list of planar coordinates.  The source
treats geometries as opaque values supporting `clone()` (deep copy —
the identity under value semantics) and `rotate(angle, anchor)`. -/
abbrev Geometry : Type := List Coordinate

/-- Modelled from the spec: the `Geometry` operation "rotate in place by
angle θ about pivot P" (§3).  The concrete implementation
(`ol/geom`'s `rotate`, applied coordinate-wise) is not part of `src/`;
the standard planar rotation about an anchor is used. -/
noncomputable def rotateGeom (g : Geometry) (angle : ℝ) (anchor : Coordinate) : Geometry :=
  g.map fun p =>
    (anchor.1 + (p.1 - anchor.1) * Real.cos angle - (p.2 - anchor.2) * Real.sin angle,
     anchor.2 + (p.1 - anchor.1) * Real.sin angle + (p.2 - anchor.2) * Real.cos angle)

/-- A feature: a stable identifier plus a mutable geometry.  Features
whose id is absent (JS `undefined`) are not exercised by the claims, so
ids are embedded as strings. -/
structure Feature where
  id : String
  geom : Geometry


/-- An extent `[minX, minY, maxX, maxY]` (indices 0–3 of the source's
extent arrays map to the four fields in order). -/
structure Extent where
  minX : ℝ
  minY : ℝ
  maxX : ℝ
  maxY : ℝ

/-- The lifecycle event types dispatched by the interaction
(`RotateEventType`, `Rotate.js` lines 19–38). -/
inductive RotateEventType where
  | rotatestart
  | rotating
  | rotateend
deriving DecidableEq

/-- Payload of a dispatched `RotateEvent` (`Rotate.js` lines 74–115):
type, the features collection, the event coordinate and the session's
start coordinate. -/
structure REvent where
  type : RotateEventType
  features : List Feature
  coordinate : Coordinate
  startCoordinate : Option Coordinate

/-- The mutable state of a `Rotate` interaction instance that the
press/drag/release handlers read and write, together with the external
`cartodi` object's two caches.  Pure configuration (`condition_`,
`layerFilter_`, `filter_`, `hitTolerance_`) and the unused `pivote_2` /
`source_cartodi_pivote_` collaborators are omitted: the condition's
verdict and the hit-test result are carried on the event instead. -/
structure RotateState where
  /-- `this.lastCoordinate_`: non-null exactly while a drag session is open. -/
  lastCoordinate_ : Option Coordinate
  /-- `this.startCoordinate_`. -/
  startCoordinate_ : Option Coordinate
  /-- `this.coordinate_`: the stored press coordinate, the start-azimuth reference. -/
  coordinate_ : Option Coordinate
  /-- `this.lastFeature_`. -/
  lastFeature_ : Option Feature
  /-- `this.features_`: the optional fixed collection (`options.features`). -/
  features_ : Option (List Feature)
  /-- `this.pivote_1`: the pivot marker feature. -/
  pivote_1 : Feature
  /-- `this.cartodi.feature_original`: the snapshot cache, keyed by feature id. -/
  feature_original : String → Option Geometry
  /-- `this.cartodi.predioEdicionSelected`, keyed by feature id. -/
  predioEdicionSelected : String → Option Feature
  /-- `this.first_`. -/
  first_ : Bool

/-- The input-event data the handlers consult: whether
`event.originalEvent` is present, the verdict of `this.condition_(event)`,
the event coordinate, and the result of the external hit test
`this.featuresAtPixel_(event.pixel, event.map)`. -/
structure MapBrowserEvent where
  hasOriginalEvent : Bool
  conditionHolds : Bool
  coordinate : Coordinate
  hit : Option Feature

/-- `this.features_ || new Collection([this.lastFeature_])`
(`Rotate.js` lines 288, 313, 377, 542): the fixed collection when
provided, otherwise the singleton of the last hit feature.  (When both
are absent the source would build a collection holding `null` and then
throw on `null.getId()`; that path is not exercised by any claim and is
embedded as the empty list.) -/
def activeFeatures (s : RotateState) : List Feature :=
  match s.features_ with
  | some fs => fs
  | none => s.lastFeature_.toList

/-- Embedding of `handleDownEvent(event)` (`Rotate.js` lines 277–302).
Returns the `consumed` boolean, the updated state, and the list of
dispatched events.  Note the source assigns `this.coordinate_` and
`this.lastFeature_` *before* testing `!this.lastCoordinate_ &&
this.lastFeature_`, so those two fields are overwritten even when the
press is not consumed.  The cosmetic `handleMoveEvent` call (cursor
styling only) is out of scope. -/
def handleDownEvent (s : RotateState) (e : MapBrowserEvent) :
    Bool × RotateState × List REvent :=
  if !e.hasOriginalEvent || !e.conditionHolds then
    (false, s, [])
  else
    let s1 := { s with coordinate_ := some e.coordinate, lastFeature_ := e.hit }
    match s1.lastCoordinate_, s1.lastFeature_ with
    | none, some _ =>
      let s2 := { s1 with
        startCoordinate_ := some e.coordinate
        lastCoordinate_ := some e.coordinate }
      (true, s2,
        [{ type := RotateEventType.rotatestart
           features := activeFeatures s2
           coordinate := e.coordinate
           startCoordinate := s2.startCoordinate_ }])
    | _, _ => (false, s1, [])

/-- The commit loop of `handleUpEvent` (`Rotate.js` lines 315–320):
`for (const x in featuresEdit) { const id = featuresEdit[x].getId();
if (id !== 'PIVOTE_1_ID') { this.cartodi.feature_original[id] =
featuresEdit[x].clone(); } }` — in iteration order, so a later feature
with the same id overwrites an earlier one's entry. -/
def commitLoop : List Feature → (String → Option Geometry) → (String → Option Geometry)
  | [], c => c
  | f :: rest, c =>
    if f.id ≠ "PIVOTE_1_ID" then
      commitLoop rest (fun k => if k = f.id then some f.geom else c k)
    else
      commitLoop rest c

/-- Embedding of `handleUpEvent(event)` (`Rotate.js` lines 310–341).
The source first sets `this.coordinate_ = null`, then — before testing
`this.lastCoordinate_` — loops over the active features and stores a
clone of every feature whose id is not `'PIVOTE_1_ID'` into
`this.cartodi.feature_original`.  Only then does it branch on whether a
session was open.  (The `this.feature_ = null` write touches a property
no other code reads and is omitted; the `coordinate_` write and the
commit loop are independent of each other, so the embedding groups both
into a single record update.) -/
def handleUpEvent (s : RotateState) (e : MapBrowserEvent) :
    Bool × RotateState × List REvent :=
  let featuresEdit := activeFeatures s
  let s2 := { s with
    coordinate_ := none
    feature_original := commitLoop featuresEdit s.feature_original }
  match s.lastCoordinate_ with
  | some _ =>
    (true,
     { s2 with lastCoordinate_ := none, startCoordinate_ := none },
     [{ type := RotateEventType.rotateend
        features := featuresEdit
        coordinate := e.coordinate
        startCoordinate := s2.startCoordinate_ }])
  | none => (false, s2, [])

/-- One iteration step of the `for (const x in featuresEdit)` loop of
`handleDragEvent` (`Rotate.js` lines 382–407), threading the live
`feature_original` and `predioEdicionSelected` caches.  `llaves` is the
key set `Object.keys(this.cartodi.feature_original)` computed once
before the loop.  A feature whose id is `'PIVOTE_1_ID'` is skipped
(`continue`).  Otherwise: if its id is among `llaves` its geometry is
reset to a clone of the cached baseline, else the cache is seeded with a
clone of the feature; the (restored or current) geometry is then rotated
about the centroid and reassigned, and the feature is recorded in
`predioEdicionSelected`. -/
noncomputable def dragLoop (llaves : String → Bool) (angle : ℝ) (centroide : Coordinate) :
    List Feature → (String → Option Geometry) → (String → Option Feature) →
    List Feature × (String → Option Geometry) × (String → Option Feature)
  | [], cache, predio => ([], cache, predio)
  | f :: rest, cache, predio =>
    if f.id = "PIVOTE_1_ID" then
      let r := dragLoop llaves angle centroide rest cache predio
      (f :: r.1, r.2)
    else
      let baseline := if llaves f.id then (cache f.id).getD f.geom else f.geom
      let cache1 : String → Option Geometry :=
        if llaves f.id then cache else fun k => if k = f.id then some f.geom else cache k
      let geometria := rotateGeom baseline angle centroide
      let f1 : Feature := { f with geom := geometria }
      let predio1 : String → Option Feature := fun k => if k = f.id then some f1 else predio k
      let r := dragLoop llaves angle centroide rest cache1 predio1
      (f1 :: r.1, r.2)

/-- Embedding of `handleDragEvent(event)` (`Rotate.js` lines 348–433).
When no session is open (`this.lastCoordinate_` null) nothing happens.
Otherwise the centroid is read from the pivot marker's point geometry,
the rotation angle is computed from the stored press coordinate and the
new pointer coordinate, the feature loop runs, `this.lastCoordinate_`
is advanced to the new coordinate, and a `rotating` event is
dispatched.  Mutating the features of the temporary singleton
collection mutates the object `this.lastFeature_` points to, so in that
case `lastFeature_` is replaced by the updated feature. -/
noncomputable def handleDragEvent (s : RotateState) (e : MapBrowserEvent) :
    RotateState × List REvent :=
  match s.lastCoordinate_ with
  | none => (s, [])
  | some _ =>
    let newCoordinate := e.coordinate
    let centroide := s.pivote_1.geom.headI
    let angulo_en_radiane := anguloEnRadiane centroide (s.coordinate_.getD (0, 0)) newCoordinate
    let featuresEdit := activeFeatures s
    let llaves : String → Bool := fun k => (s.feature_original k).isSome
    let r := dragLoop llaves angulo_en_radiane centroide featuresEdit
      s.feature_original s.predioEdicionSelected
    let s1 := { s with
      feature_original := r.2.1
      predioEdicionSelected := r.2.2
      lastCoordinate_ := some newCoordinate
      features_ := s.features_.map fun _ => r.1
      lastFeature_ := if s.features_.isSome then s.lastFeature_ else r.1.head? }
    (s1, [{ type := RotateEventType.rotating
            features := r.1
            coordinate := newCoordinate
            startCoordinate := s1.startCoordinate_ }])

/-- Embedding of `getCenterOfExtent(Extent)` (`Rotate.js` lines 536–540):
`X = Extent[0] + (Extent[2] - Extent[0]) / 2`,
`Y = Extent[1] + (Extent[3] - Extent[1]) / 2`. -/
noncomputable def getCenterOfExtent (E : Extent) : Coordinate :=
  (E.minX + (E.maxX - E.minX) / 2, E.minY + (E.maxY - E.minY) / 2)

/-- Modelled from the spec: the bounding extent of one non-empty
geometry, the componentwise min/max over its coordinates (the concrete
`ol/geom` extent computation is not part of `src/`; §4.2 "union the
bounding extents of all input geometries").  The empty geometry is
given a degenerate zero extent; the claims only concern non-empty
geometries. -/
noncomputable def geometryExtent : Geometry → Extent
  | [] => ⟨0, 0, 0, 0⟩
  | p :: ps =>
    ps.foldl (fun E q => ⟨min E.minX q.1, min E.minY q.2, max E.maxX q.1, max E.maxY q.2⟩)
      ⟨p.1, p.2, p.1, p.2⟩

/-- Modelled from the spec: `VectorSource.getExtent()` over the added
features — the union (componentwise min/max) of the bounding extents of
all the features' geometries (not part of `src/`; §4.2).  Empty input
yields a degenerate zero extent; the claims only concern non-empty
input. -/
noncomputable def sourceExtent : List Geometry → Extent
  | [] => ⟨0, 0, 0, 0⟩
  | g :: gs =>
    gs.foldl
      (fun E g' =>
        let E' := geometryExtent g'
        ⟨min E.minX E'.minX, min E.minY E'.minY, max E.maxX E'.maxX, max E.maxY E'.maxY⟩)
      (geometryExtent g)

/-- Embedding of `refreshFeaturesPivotes()` (`Rotate.js` lines 541–563):
collect the active features into a fresh vector source, take its
extent, compute the center, set the pivot marker's geometry to that
point and its id to `'PIVOTE_1_ID'`, and clear `first_`.  (Adding the
marker to the external `source_cartodi_pivote_` layer is out of
scope.) -/
noncomputable def refreshFeaturesPivotes (s : RotateState) : RotateState :=
  let features := activeFeatures s
  let extent := sourceExtent (features.map Feature.geom)
  let centro := getCenterOfExtent extent
  { s with
    pivote_1 := { id := "PIVOTE_1_ID", geom := [centro] }
    first_ := false }

/-- Abbreviation for the angle `handleDragEvent` computes for state `s`
and event `e`: `anguloEnRadiane(centroide, this.coordinate_,
event.coordinate)` with the centroid read from the pivot marker. -/
noncomputable def dragAngle (s : RotateState) (e : MapBrowserEvent) : ℝ :=
  anguloEnRadiane s.pivote_1.geom.headI (s.coordinate_.getD (0, 0)) e.coordinate

/-- The per-feature effect of one `handleDragEvent` feature loop, as a
function of the loop-entry cache `cache0` and its key set `llaves`: a
feature with id `'PIVOTE_1_ID'` is untouched; otherwise its geometry is
replaced by the rotation of the cached baseline (when its id is a key
of the cache) or of its current geometry (when not). -/
noncomputable def dragFeature (llaves : String → Bool) (cache0 : String → Option Geometry)
    (angle : ℝ) (centroide : Coordinate) (f : Feature) : Feature :=
  if f.id = "PIVOTE_1_ID" then f
  else { f with
    geom := rotateGeom (if llaves f.id then (cache0 f.id).getD f.geom else f.geom)
      angle centroide }

/-- A concrete ordinary feature used in witnesses and counterexamples. -/
def featA : Feature := ⟨"A", [((1 : ℝ), (0 : ℝ))]⟩

/-- A concrete caller-supplied feature whose id happens to be the pivot
marker's literal id. -/
def featPivotLike : Feature := ⟨"PIVOTE_1_ID", [((9 : ℝ), (9 : ℝ))]⟩

/-- The pivot marker feature positioned at the origin. -/
def pivotMarker : Feature := ⟨"PIVOTE_1_ID", [((0 : ℝ), (0 : ℝ))]⟩

/-- A concrete state with no open drag session (`lastCoordinate_` null)
and an empty snapshot cache. -/
def closedState : RotateState where
  lastCoordinate_ := none
  startCoordinate_ := none
  coordinate_ := none
  lastFeature_ := none
  features_ := some [featA]
  pivote_1 := pivotMarker
  feature_original := fun _ => none
  predioEdicionSelected := fun _ => none
  first_ := true

/-- A concrete state with an open drag session: press happened at
`(1,1)`, the cache already holds a baseline for feature `"A"`, and the
collection also contains an ordinary feature carrying the literal pivot
id. -/
def openState : RotateState where
  lastCoordinate_ := some ((0 : ℝ), (0 : ℝ))
  startCoordinate_ := some ((0 : ℝ), (0 : ℝ))
  coordinate_ := some ((1 : ℝ), (1 : ℝ))
  lastFeature_ := none
  features_ := some [featA, featPivotLike]
  pivote_1 := pivotMarker
  feature_original := fun k => if k = "A" then some [((1 : ℝ), (0 : ℝ))] else none
  predioEdicionSelected := fun _ => none
  first_ := false

/-- `openState` with a pivot marker whose id is *not* the literal
`'PIVOTE_1_ID'`, showing exclusion is keyed on the literal string and
not on the marker object. -/
def oddPivotState : RotateState := { openState with pivote_1 := ⟨"OTHER", [((0 : ℝ), (0 : ℝ))]⟩ }

/-- A concrete press event at `(5,5)` satisfying the condition. -/
def evDown : MapBrowserEvent := ⟨true, true, ((5 : ℝ), (5 : ℝ)), none⟩

/-- A concrete drag/up event at `(2,3)`. -/
def evA : MapBrowserEvent := ⟨true, true, ((2 : ℝ), (3 : ℝ)), none⟩

/-- A concrete drag event at `(4,7)`. -/
def evB : MapBrowserEvent := ⟨true, true, ((4 : ℝ), (7 : ℝ)), none⟩

section AzimutLemmas

/-- First quadrant branch: `dx > 0 ∧ dy > 0`. -/
theorem getAzimut_eq_q1 (c1 c2 : Coordinate)
    (h1 : 0 < c2.1 - c1.1) (h2 : 0 < c2.2 - c1.2) :
    getAzimut c1 c2 = Real.arctan ((c2.1 - c1.1) / (c2.2 - c1.2)) * 180 / Real.pi := by
  simp only [getAzimut]
  rw [if_pos ⟨h1, h2⟩]

/-- Fourth quadrant branch of the source (`dx > 0 ∧ dy < 0`). -/
theorem getAzimut_eq_q4 (c1 c2 : Coordinate)
    (h1 : 0 < c2.1 - c1.1) (h2 : c2.2 - c1.2 < 0) :
    getAzimut c1 c2 =
      (Real.arctan ((c2.1 - c1.1) / (c2.2 - c1.2)) + Real.pi) * 180 / Real.pi := by
  simp only [getAzimut]
  rw [if_neg (by rintro ⟨-, h⟩; exact absurd h2 (asymm h)), if_pos ⟨h1, h2⟩]

/-- Third quadrant branch of the source (`dx < 0 ∧ dy < 0`). -/
theorem getAzimut_eq_q3 (c1 c2 : Coordinate)
    (h1 : c2.1 - c1.1 < 0) (h2 : c2.2 - c1.2 < 0) :
    getAzimut c1 c2 =
      (Real.arctan ((c2.1 - c1.1) / (c2.2 - c1.2)) + Real.pi) * 180 / Real.pi := by
  simp only [getAzimut]
  rw [if_neg (by rintro ⟨h, -⟩; exact absurd h1 (asymm h)),
    if_neg (by rintro ⟨h, -⟩; exact absurd h1 (asymm h)), if_pos ⟨h1, h2⟩]

/-- Second quadrant branch of the source (`dx < 0 ∧ dy > 0`). -/
theorem getAzimut_eq_q2 (c1 c2 : Coordinate)
    (h1 : c2.1 - c1.1 < 0) (h2 : 0 < c2.2 - c1.2) :
    getAzimut c1 c2 =
      (Real.arctan ((c2.1 - c1.1) / (c2.2 - c1.2)) + 2 * Real.pi) * 180 / Real.pi := by
  simp only [getAzimut]
  rw [if_neg (by rintro ⟨h, -⟩; exact absurd h1 (asymm h)),
    if_neg (by rintro ⟨h, -⟩; exact absurd h1 (asymm h)),
    if_neg (by rintro ⟨-, h⟩; exact absurd h2 (asymm h)), if_pos ⟨h1, h2⟩]

/-- Axis case: when `dx = 0` or `dy = 0` no quadrant branch fires and the
initialised value `0` flows to the output. -/
theorem getAzimut_eq_axis (c1 c2 : Coordinate)
    (h : c2.1 - c1.1 = 0 ∨ c2.2 - c1.2 = 0) :
    getAzimut c1 c2 = 0 := by
  simp only [getAzimut]
  rcases h with h | h
  · rw [if_neg (fun hc => by rw [h] at hc; exact lt_irrefl (0 : ℝ) hc.1),
      if_neg (fun hc => by rw [h] at hc; exact lt_irrefl (0 : ℝ) hc.1),
      if_neg (fun hc => by rw [h] at hc; exact lt_irrefl (0 : ℝ) hc.1),
      if_neg (fun hc => by rw [h] at hc; exact lt_irrefl (0 : ℝ) hc.1), zero_mul, zero_div]
  · rw [if_neg (fun hc => by rw [h] at hc; exact lt_irrefl (0 : ℝ) hc.2),
      if_neg (fun hc => by rw [h] at hc; exact lt_irrefl (0 : ℝ) hc.2),
      if_neg (fun hc => by rw [h] at hc; exact lt_irrefl (0 : ℝ) hc.2),
      if_neg (fun hc => by rw [h] at hc; exact lt_irrefl (0 : ℝ) hc.2), zero_mul, zero_div]

/-- Strictly positive arctangent for strictly positive arguments. -/
theorem arctan_pos_of_pos {t : ℝ} (h : 0 < t) : 0 < Real.arctan t := by
  have := Real.arctan_strictMono h
  rwa [Real.arctan_zero] at this

/-- Strictly negative arctangent for strictly negative arguments. -/
theorem arctan_neg_of_neg {t : ℝ} (h : t < 0) : Real.arctan t < 0 := by
  have := Real.arctan_strictMono h
  rwa [Real.arctan_zero] at this

/-- Sector bounds in the first quadrant branch. -/
theorem getAzimut_bounds_q1 (c1 c2 : Coordinate)
    (h1 : 0 < c2.1 - c1.1) (h2 : 0 < c2.2 - c1.2) :
    0 < getAzimut c1 c2 ∧ getAzimut c1 c2 < 90 := by
  rw [getAzimut_eq_q1 c1 c2 h1 h2]
  have ha := arctan_pos_of_pos (div_pos h1 h2)
  have hb := Real.arctan_lt_pi_div_two ((c2.1 - c1.1) / (c2.2 - c1.2))
  have hpi := Real.pi_pos
  constructor
  · positivity
  · rw [div_lt_iff₀ hpi]; nlinarith

/-- Sector bounds in the source's fourth-quadrant branch (`dx > 0 ∧ dy < 0`). -/
theorem getAzimut_bounds_q4 (c1 c2 : Coordinate)
    (h1 : 0 < c2.1 - c1.1) (h2 : c2.2 - c1.2 < 0) :
    90 < getAzimut c1 c2 ∧ getAzimut c1 c2 < 180 := by
  rw [getAzimut_eq_q4 c1 c2 h1 h2]
  have ha := arctan_neg_of_neg (div_neg_of_pos_of_neg h1 h2)
  have hb := Real.neg_pi_div_two_lt_arctan ((c2.1 - c1.1) / (c2.2 - c1.2))
  have hpi := Real.pi_pos
  constructor
  · rw [lt_div_iff₀ hpi]; nlinarith
  · rw [div_lt_iff₀ hpi]; nlinarith

/-- Sector bounds in the third-quadrant branch (`dx < 0 ∧ dy < 0`). -/
theorem getAzimut_bounds_q3 (c1 c2 : Coordinate)
    (h1 : c2.1 - c1.1 < 0) (h2 : c2.2 - c1.2 < 0) :
    180 < getAzimut c1 c2 ∧ getAzimut c1 c2 < 270 := by
  rw [getAzimut_eq_q3 c1 c2 h1 h2]
  have ha := arctan_pos_of_pos (div_pos_of_neg_of_neg h1 h2)
  have hb := Real.arctan_lt_pi_div_two ((c2.1 - c1.1) / (c2.2 - c1.2))
  have hpi := Real.pi_pos
  constructor
  · rw [lt_div_iff₀ hpi]; nlinarith
  · rw [div_lt_iff₀ hpi]; nlinarith

/-- Sector bounds in the second-quadrant branch (`dx < 0 ∧ dy > 0`). -/
theorem getAzimut_bounds_q2 (c1 c2 : Coordinate)
    (h1 : c2.1 - c1.1 < 0) (h2 : 0 < c2.2 - c1.2) :
    270 < getAzimut c1 c2 ∧ getAzimut c1 c2 < 360 := by
  rw [getAzimut_eq_q2 c1 c2 h1 h2]
  have ha := arctan_neg_of_neg (div_neg_of_neg_of_pos h1 h2)
  have hb := Real.neg_pi_div_two_lt_arctan ((c2.1 - c1.1) / (c2.2 - c1.2))
  have hpi := Real.pi_pos
  constructor
  · rw [lt_div_iff₀ hpi]; nlinarith
  · rw [div_lt_iff₀ hpi]; nlinarith

/-- `getAzimut((0,0),(1,1)) = 45`. -/
theorem getAzimut_diag45 : getAzimut (0, 0) (1, 1) = 45 := by
  rw [getAzimut_eq_q1 (0, 0) (1, 1) (by norm_num) (by norm_num)]
  norm_num [Real.arctan_one]
  field_simp
  ring

/-- `getAzimut((0,0),(1,-1)) = 135`. -/
theorem getAzimut_diag135 : getAzimut (0, 0) (1, -1) = 135 := by
  rw [getAzimut_eq_q4 (0, 0) (1, -1) (by norm_num) (by norm_num)]
  have h : ((1 : ℝ) - 0) / (-1 - 0) = -1 := by norm_num
  rw [h, show (-1 : ℝ) = -(1 : ℝ) from rfl, Real.arctan_neg, Real.arctan_one]
  field_simp
  ring

/-- `getAzimut((0,0),(-1,-1)) = 225`. -/
theorem getAzimut_diag225 : getAzimut (0, 0) (-1, -1) = 225 := by
  rw [getAzimut_eq_q3 (0, 0) (-1, -1) (by norm_num) (by norm_num)]
  have h : ((-1 : ℝ) - 0) / (-1 - 0) = 1 := by norm_num
  rw [h, Real.arctan_one]
  field_simp
  ring

/-- `getAzimut((0,0),(-1,1)) = 315`. -/
theorem getAzimut_diag315 : getAzimut (0, 0) (-1, 1) = 315 := by
  rw [getAzimut_eq_q2 (0, 0) (-1, 1) (by norm_num) (by norm_num)]
  have h : ((-1 : ℝ) - 0) / (1 - 0) = -1 := by norm_num
  rw [h, show (-1 : ℝ) = -(1 : ℝ) from rfl, Real.arctan_neg, Real.arctan_one]
  field_simp
  ring

end AzimutLemmas

/-- **C1, counterexample.**  With pivot `(0,0)`, stored press coordinate
`(0,1)` (start azimuth 0) and pointer at `(1,1)` (current azimuth 45),
the angle the drag update feeds to the rotation is `-(π/4)` radians,
whereas the claimed formula `-(startAzimuth - currentAzimuth)·π/180`
yields `π/4`: the code's double negation flips the claimed sign. -/
theorem claim_C1_counterexample :
    anguloEnRadiane (0, 0) (0, 1) (1, 1) = -(Real.pi / 4) ∧
    -(getAzimut (0, 0) (0, 1) - getAzimut (0, 0) (1, 1)) * Real.pi / 180 = Real.pi / 4 ∧
    anguloEnRadiane (0, 0) (0, 1) (1, 1) ≠
      -(getAzimut (0, 0) (0, 1) - getAzimut (0, 0) (1, 1)) * Real.pi / 180 := by
  have hs : getAzimut (0, 0) (0, 1) = 0 :=
    getAzimut_eq_axis (0, 0) (0, 1) (Or.inl (by norm_num))
  have hc : getAzimut (0, 0) (1, 1) = 45 := getAzimut_diag45
  have h1 : anguloEnRadiane (0, 0) (0, 1) (1, 1) = -(Real.pi / 4) := by
    simp only [anguloEnRadiane, hs, hc]; ring
  have h2 : -(getAzimut (0, 0) (0, 1) - getAzimut (0, 0) (1, 1)) * Real.pi / 180
      = Real.pi / 4 := by rw [hs, hc]; ring
  refine ⟨h1, h2, ?_⟩
  rw [h1, h2]
  have hpi := Real.pi_pos
  intro h
  linarith

/-- **C1, amended.**  The rotation angle applied to each feature's
geometry during a drag update equals `+(startAzimuth - currentAzimuth)
· π/180` radians — the opposite sign of the spec's stated convention:
in the source `angulo_final = (angulo_inicial - angulo) * -1` and
`angulo_en_radiane = (angulo_final * π) / -180`, and the two negations
cancel. -/
theorem claim_C1_rotation_angle (centroide coordinate newCoordinate : Coordinate) :
    anguloEnRadiane centroide coordinate newCoordinate =
      (getAzimut centroide coordinate - getAzimut centroide newCoordinate) *
        Real.pi / 180 := by
  simp only [anguloEnRadiane]; ring

/-- **C4, counterexample.**  For `dx > 0, dy = 0` the claim requires
azimuth 90, but `getAzimut((0,0),(1,0)) = 0`: none of the four
strict-sign quadrant branches fires, so the initialised `azimut = 0` is
returned. -/
theorem claim_C4_counterexample :
    getAzimut (0, 0) (1, 0) = 0 ∧ getAzimut (0, 0) (1, 0) ≠ 90 := by
  have h := getAzimut_eq_axis (0, 0) (1, 0) (Or.inr (by norm_num))
  exact ⟨h, by rw [h]; norm_num⟩

/-- **C4, amended.**  On every axis case (`dx = 0` or `dy = 0`,
including the zero vector) `getAzimut` returns `0`: the quadrant
dispatch requires strict signs on both components, so no branch
assigns and the initial value `0` flows to the output.  In particular
`dx = 0, dy > 0 → 0` as claimed, but `dx > 0, dy = 0`, `dx = 0, dy < 0`
and `dx < 0, dy = 0` also yield `0`, not `90/180/270`. -/
theorem claim_C4_axis_zero (c1 c2 : Coordinate)
    (h : c2.1 - c1.1 = 0 ∨ c2.2 - c1.2 = 0) : getAzimut c1 c2 = 0 :=
  getAzimut_eq_axis c1 c2 h

/-- Witness for `claim_C4_axis_zero` at `c1 = (0,0)`, `c2 = (0,-2)`. -/
theorem claim_C4_axis_zero_witness : getAzimut (0, 0) (0, -2) = 0 :=
  claim_C4_axis_zero (0, 0) (0, -2) (Or.inl (by norm_num))

/-- **C5.**  Quadrant correctness of `getAzimut`: in each of the four
strict-sign cases the result follows the stated contract
(raw `arctan(dx/dy)`, `+180°`, `+180°`, `+360°`, converted to degrees)
and lies in the corresponding open 90° sector; and the four diagonal
examples evaluate to 45, 135, 225 and 315 degrees. -/
theorem claim_C5_quadrants :
    (∀ c1 c2 : Coordinate, 0 < c2.1 - c1.1 → 0 < c2.2 - c1.2 →
      getAzimut c1 c2 = Real.arctan ((c2.1 - c1.1) / (c2.2 - c1.2)) * 180 / Real.pi ∧
      0 < getAzimut c1 c2 ∧ getAzimut c1 c2 < 90) ∧
    (∀ c1 c2 : Coordinate, 0 < c2.1 - c1.1 → c2.2 - c1.2 < 0 →
      getAzimut c1 c2 =
        (Real.arctan ((c2.1 - c1.1) / (c2.2 - c1.2)) + Real.pi) * 180 / Real.pi ∧
      90 < getAzimut c1 c2 ∧ getAzimut c1 c2 < 180) ∧
    (∀ c1 c2 : Coordinate, c2.1 - c1.1 < 0 → c2.2 - c1.2 < 0 →
      getAzimut c1 c2 =
        (Real.arctan ((c2.1 - c1.1) / (c2.2 - c1.2)) + Real.pi) * 180 / Real.pi ∧
      180 < getAzimut c1 c2 ∧ getAzimut c1 c2 < 270) ∧
    (∀ c1 c2 : Coordinate, c2.1 - c1.1 < 0 → 0 < c2.2 - c1.2 →
      getAzimut c1 c2 =
        (Real.arctan ((c2.1 - c1.1) / (c2.2 - c1.2)) + 2 * Real.pi) * 180 / Real.pi ∧
      270 < getAzimut c1 c2 ∧ getAzimut c1 c2 < 360) ∧
    getAzimut (0, 0) (1, 1) = 45 ∧ getAzimut (0, 0) (1, -1) = 135 ∧
    getAzimut (0, 0) (-1, -1) = 225 ∧ getAzimut (0, 0) (-1, 1) = 315 :=
  ⟨fun c1 c2 h1 h2 => ⟨getAzimut_eq_q1 c1 c2 h1 h2, getAzimut_bounds_q1 c1 c2 h1 h2⟩,
   fun c1 c2 h1 h2 => ⟨getAzimut_eq_q4 c1 c2 h1 h2, getAzimut_bounds_q4 c1 c2 h1 h2⟩,
   fun c1 c2 h1 h2 => ⟨getAzimut_eq_q3 c1 c2 h1 h2, getAzimut_bounds_q3 c1 c2 h1 h2⟩,
   fun c1 c2 h1 h2 => ⟨getAzimut_eq_q2 c1 c2 h1 h2, getAzimut_bounds_q2 c1 c2 h1 h2⟩,
   getAzimut_diag45, getAzimut_diag135, getAzimut_diag225, getAzimut_diag315⟩

/-- Witness for `claim_C5_quadrants`: the first-quadrant clause applied
to the concrete input `(0,0)`, `(1,2)`. -/
theorem claim_C5_quadrants_witness :
    0 < getAzimut (0, 0) (1, 2) ∧ getAzimut (0, 0) (1, 2) < 90 :=
  (claim_C5_quadrants.1 (0, 0) (1, 2) (by norm_num) (by norm_num)).2

/-- **C8.**  `getAzimut` always yields a defined degree value in
`[0, 360)`, and on a zero-length vector (equal coordinates) it yields
exactly `0`, so no undefined angle can reach the rotation of a drag
update. -/
theorem claim_C8_defined_range :
    (∀ c1 c2 : Coordinate, 0 ≤ getAzimut c1 c2 ∧ getAzimut c1 c2 < 360) ∧
    (∀ c : Coordinate, getAzimut c c = 0) := by
  constructor
  · intro c1 c2
    rcases lt_trichotomy (c2.1 - c1.1) 0 with hx | hx | hx
    · rcases lt_trichotomy (c2.2 - c1.2) 0 with hy | hy | hy
      · have h := getAzimut_bounds_q3 c1 c2 hx hy
        exact ⟨le_of_lt (lt_trans (by norm_num) h.1), lt_trans h.2 (by norm_num)⟩
      · rw [getAzimut_eq_axis c1 c2 (Or.inr hy)]; norm_num
      · have h := getAzimut_bounds_q2 c1 c2 hx hy
        exact ⟨le_of_lt (lt_trans (by norm_num) h.1), h.2⟩
    · rw [getAzimut_eq_axis c1 c2 (Or.inl hx)]; norm_num
    · rcases lt_trichotomy (c2.2 - c1.2) 0 with hy | hy | hy
      · have h := getAzimut_bounds_q4 c1 c2 hx hy
        exact ⟨le_of_lt (lt_trans (by norm_num) h.1), lt_trans h.2 (by norm_num)⟩
      · rw [getAzimut_eq_axis c1 c2 (Or.inr hy)]; norm_num
      · have h := getAzimut_bounds_q1 c1 c2 hx hy
        exact ⟨le_of_lt h.1, lt_trans h.2 (by norm_num)⟩
  · intro c
    exact getAzimut_eq_axis c c (Or.inl (sub_self _))

section DragLemmas

/-- Unfolding of `dragLoop` on a pivot-id feature (`continue`). -/
theorem dragLoop_cons_pivot (llaves : String → Bool) (a : ℝ) (c : Coordinate)
    (f : Feature) (rest : List Feature)
    (cache : String → Option Geometry) (predio : String → Option Feature)
    (hid : f.id = "PIVOTE_1_ID") :
    dragLoop llaves a c (f :: rest) cache predio =
      (f :: (dragLoop llaves a c rest cache predio).1,
        (dragLoop llaves a c rest cache predio).2) := by
  simp only [dragLoop, if_pos hid]

/-- Unfolding of `dragLoop` on a non-pivot feature. -/
theorem dragLoop_cons_else (llaves : String → Bool) (a : ℝ) (c : Coordinate)
    (f : Feature) (rest : List Feature)
    (cache : String → Option Geometry) (predio : String → Option Feature)
    (hid : ¬f.id = "PIVOTE_1_ID") :
    dragLoop llaves a c (f :: rest) cache predio =
      ((⟨f.id, rotateGeom (if llaves f.id then (cache f.id).getD f.geom else f.geom) a c⟩ :
          Feature) ::
        (dragLoop llaves a c rest
          (if llaves f.id then cache else fun k => if k = f.id then some f.geom else cache k)
          (fun k => if k = f.id then
            some (⟨f.id, rotateGeom (if llaves f.id then (cache f.id).getD f.geom else f.geom)
              a c⟩ : Feature)
            else predio k)).1,
        (dragLoop llaves a c rest
          (if llaves f.id then cache else fun k => if k = f.id then some f.geom else cache k)
          (fun k => if k = f.id then
            some (⟨f.id, rotateGeom (if llaves f.id then (cache f.id).getD f.geom else f.geom)
              a c⟩ : Feature)
            else predio k)).2) := by
  simp only [dragLoop, if_neg hid]

/-- Under the invariant that the live cache agrees with the loop-entry
cache `cache0` on every key of `llaves`, the feature list produced by
`dragLoop` is the pointwise `dragFeature` image of the input list. -/
theorem dragLoop_features_map (llaves : String → Bool) (cache0 : String → Option Geometry)
    (a : ℝ) (c : Coordinate) (fs : List Feature) :
    ∀ (cache : String → Option Geometry) (predio : String → Option Feature),
      (∀ k, llaves k = true → cache k = cache0 k) →
      (dragLoop llaves a c fs cache predio).1 = fs.map (dragFeature llaves cache0 a c) := by
  induction fs with
  | nil => intro cache predio _; rfl
  | cons f rest ih =>
    intro cache predio hinv
    by_cases hid : f.id = "PIVOTE_1_ID"
    · rw [dragLoop_cons_pivot llaves a c f rest cache predio hid, List.map_cons,
        ih cache predio hinv, dragFeature, if_pos hid]
    · rw [dragLoop_cons_else llaves a c f rest cache predio hid, List.map_cons]
      by_cases hl : llaves f.id
      · rw [if_pos hl, if_pos hl]
        rw [ih cache _ hinv]
        have hbase : (cache f.id).getD f.geom = (cache0 f.id).getD f.geom := by
          rw [hinv f.id hl]
        rw [hbase, dragFeature, if_neg hid, if_pos hl]
      · rw [if_neg hl, if_neg hl]
        have hinv1 : ∀ k, llaves k = true →
            (fun k => if k = f.id then some f.geom else cache k) k = cache0 k := by
          intro k hk
          have hne : k ≠ f.id := fun h => hl (h ▸ hk)
          simp only [if_neg hne]
          exact hinv k hk
        rw [ih _ _ hinv1, dragFeature, if_neg hid, if_neg hl]

/-- `dragLoop` never writes a cache key of `llaves`. -/
theorem dragLoop_cache_agrees (llaves : String → Bool) (a : ℝ) (c : Coordinate)
    (fs : List Feature) :
    ∀ (cache : String → Option Geometry) (predio : String → Option Feature) (k : String),
      llaves k = true →
      (dragLoop llaves a c fs cache predio).2.1 k = cache k := by
  induction fs with
  | nil => intro cache predio k _; rfl
  | cons f rest ih =>
    intro cache predio k hk
    by_cases hid : f.id = "PIVOTE_1_ID"
    · rw [dragLoop_cons_pivot llaves a c f rest cache predio hid]
      exact ih cache predio k hk
    · rw [dragLoop_cons_else llaves a c f rest cache predio hid]
      by_cases hl : llaves f.id
      · simp only [if_pos hl]
        exact ih cache _ k hk
      · simp only [if_neg hl]
        have hne : k ≠ f.id := fun h => hl (h ▸ hk)
        rw [ih _ _ k hk]
        simp only [if_neg hne]

/-- `dragLoop` never discards a cache entry: `isSome` is monotone. -/
theorem dragLoop_cache_isSome_mono (llaves : String → Bool) (a : ℝ) (c : Coordinate)
    (fs : List Feature) :
    ∀ (cache : String → Option Geometry) (predio : String → Option Feature) (k : String),
      (cache k).isSome = true →
      ((dragLoop llaves a c fs cache predio).2.1 k).isSome = true := by
  induction fs with
  | nil => intro cache predio k hk; exact hk
  | cons f rest ih =>
    intro cache predio k hk
    by_cases hid : f.id = "PIVOTE_1_ID"
    · rw [dragLoop_cons_pivot llaves a c f rest cache predio hid]
      exact ih cache predio k hk
    · rw [dragLoop_cons_else llaves a c f rest cache predio hid]
      by_cases hl : llaves f.id
      · simp only [if_pos hl]; exact ih cache _ k hk
      · simp only [if_neg hl]
        apply ih
        by_cases hke : k = f.id
        · simp only [if_pos hke, Option.isSome_some]
        · simp only [if_neg hke]; exact hk

/-- `dragLoop` never writes the cache key `'PIVOTE_1_ID'`: only features
that escaped the `continue` check write the cache, and they write their
own (non-pivot) id. -/
theorem dragLoop_cache_pivot_key (llaves : String → Bool) (a : ℝ) (c : Coordinate)
    (fs : List Feature) :
    ∀ (cache : String → Option Geometry) (predio : String → Option Feature),
      (dragLoop llaves a c fs cache predio).2.1 "PIVOTE_1_ID" = cache "PIVOTE_1_ID" := by
  induction fs with
  | nil => intro cache predio; rfl
  | cons f rest ih =>
    intro cache predio
    by_cases hid : f.id = "PIVOTE_1_ID"
    · rw [dragLoop_cons_pivot llaves a c f rest cache predio hid]
      exact ih cache predio
    · rw [dragLoop_cons_else llaves a c f rest cache predio hid]
      by_cases hl : llaves f.id
      · simp only [if_pos hl]; exact ih cache _
      · simp only [if_neg hl]
        rw [ih _ _]
        have hne : "PIVOTE_1_ID" ≠ f.id := fun h => hid h.symm
        simp only [if_neg hne]

end DragLemmas

section HandlerLemmas

/-- The commit loop never writes the cache key `'PIVOTE_1_ID'`. -/
theorem commitLoop_pivot_key (fs : List Feature) :
    ∀ c : String → Option Geometry, commitLoop fs c "PIVOTE_1_ID" = c "PIVOTE_1_ID" := by
  induction fs with
  | nil => intro c; rfl
  | cons f rest ih =>
    intro c
    by_cases hid : f.id = "PIVOTE_1_ID"
    · simp only [commitLoop, hid, ne_eq, not_true_eq_false, if_false]
      exact ih c
    · simp only [commitLoop, ne_eq, hid, not_false_eq_true, if_true]
      rw [ih _]
      have hne : "PIVOTE_1_ID" ≠ f.id := fun h => hid h.symm
      simp only [if_neg hne]

/-- The commit loop leaves every key that is no feature's id unchanged. -/
theorem commitLoop_not_mem (fs : List Feature) (k : String)
    (h : ∀ f ∈ fs, f.id ≠ k) :
    ∀ c : String → Option Geometry, commitLoop fs c k = c k := by
  induction fs with
  | nil => intro c; rfl
  | cons f rest ih =>
    intro c
    have hrest : ∀ f' ∈ rest, f'.id ≠ k := fun f' hf' => h f' (List.mem_cons_of_mem f hf')
    by_cases hid : f.id = "PIVOTE_1_ID"
    · simp only [commitLoop, hid, ne_eq, not_true_eq_false, if_false]
      exact ih hrest c
    · simp only [commitLoop, ne_eq, hid, not_false_eq_true, if_true]
      rw [ih hrest _]
      have hne : k ≠ f.id := fun hk => h f (List.mem_cons_self f rest) hk.symm
      simp only [if_neg hne]

/-- With pairwise-distinct feature ids, the commit loop stores each
non-pivot feature's geometry under its id. -/
theorem commitLoop_mem (fs : List Feature) (hnd : (fs.map Feature.id).Nodup)
    (f : Feature) (hf : f ∈ fs) (hp : f.id ≠ "PIVOTE_1_ID") :
    ∀ c : String → Option Geometry, commitLoop fs c f.id = some f.geom := by
  induction fs with
  | nil => exact absurd hf (List.not_mem_nil f)
  | cons g rest ih =>
    intro c
    rw [List.map_cons, List.nodup_cons] at hnd
    rcases List.mem_cons.mp hf with hfg | hfr
    · subst hfg
      simp only [commitLoop, ne_eq, hp, not_false_eq_true, if_true]
      have hrest : ∀ f' ∈ rest, f'.id ≠ f.id := by
        intro f' hf' he
        exact hnd.1 (he ▸ List.mem_map_of_mem Feature.id hf')
      rw [commitLoop_not_mem rest f.id hrest _]
      simp
    · by_cases hid : g.id = "PIVOTE_1_ID"
      · simp only [commitLoop, hid, ne_eq, not_true_eq_false, if_false]
        exact ih hnd.2 hfr c
      · simp only [commitLoop, ne_eq, hid, not_false_eq_true, if_true]
        exact ih hnd.2 hfr _

/-- `handleUpEvent` with no open session: not consumed, no event, and
the state update is exactly `coordinate_ := null` plus the commit
loop's cache writes. -/
theorem handleUpEvent_none_eq (s : RotateState) (e : MapBrowserEvent)
    (h : s.lastCoordinate_ = none) :
    handleUpEvent s e =
      (false,
       { s with
         coordinate_ := none
         feature_original := commitLoop (activeFeatures s) s.feature_original },
       []) := by
  simp only [handleUpEvent, h]

/-- `handleUpEvent` with an open session: consumed, `rotateend`
dispatched, session fields cleared, cache updated by the commit loop. -/
theorem handleUpEvent_some_eq (s : RotateState) (e : MapBrowserEvent) (l : Coordinate)
    (h : s.lastCoordinate_ = some l) :
    handleUpEvent s e =
      (true,
       { s with
         coordinate_ := none
         feature_original := commitLoop (activeFeatures s) s.feature_original
         lastCoordinate_ := none
         startCoordinate_ := none },
       [{ type := RotateEventType.rotateend
          features := activeFeatures s
          coordinate := e.coordinate
          startCoordinate := s.startCoordinate_ }]) := by
  simp only [handleUpEvent, h]

/-- `handleDragEvent` with no open session is an identity: no state
change, no event. -/
theorem handleDragEvent_none_eq (s : RotateState) (e : MapBrowserEvent)
    (h : s.lastCoordinate_ = none) :
    handleDragEvent s e = (s, []) := by
  simp only [handleDragEvent, h]

/-- `handleDragEvent` with an open session, written via `dragLoop`. -/
theorem handleDragEvent_some_eq (s : RotateState) (e : MapBrowserEvent) (l : Coordinate)
    (h : s.lastCoordinate_ = some l) :
    handleDragEvent s e =
      ({ s with
         feature_original := (dragLoop (fun k => (s.feature_original k).isSome)
           (dragAngle s e) s.pivote_1.geom.headI (activeFeatures s)
           s.feature_original s.predioEdicionSelected).2.1
         predioEdicionSelected := (dragLoop (fun k => (s.feature_original k).isSome)
           (dragAngle s e) s.pivote_1.geom.headI (activeFeatures s)
           s.feature_original s.predioEdicionSelected).2.2
         lastCoordinate_ := some e.coordinate
         features_ := s.features_.map fun _ => (dragLoop (fun k => (s.feature_original k).isSome)
           (dragAngle s e) s.pivote_1.geom.headI (activeFeatures s)
           s.feature_original s.predioEdicionSelected).1
         lastFeature_ := if s.features_.isSome then s.lastFeature_
           else (dragLoop (fun k => (s.feature_original k).isSome)
             (dragAngle s e) s.pivote_1.geom.headI (activeFeatures s)
             s.feature_original s.predioEdicionSelected).1.head? },
       [{ type := RotateEventType.rotating
          features := (dragLoop (fun k => (s.feature_original k).isSome)
            (dragAngle s e) s.pivote_1.geom.headI (activeFeatures s)
            s.feature_original s.predioEdicionSelected).1
          coordinate := e.coordinate
          startCoordinate := s.startCoordinate_ }]) := by
  simp only [handleDragEvent, h, dragAngle]

end HandlerLemmas

section DragStateLemmas

/-- During an open-session drag update, the active feature list is
mapped pointwise through `dragFeature` (both in the fixed-collection
case and in the singleton `lastFeature_` case). -/
theorem drag_activeFeatures_map (s : RotateState) (e : MapBrowserEvent) (l : Coordinate)
    (hl : s.lastCoordinate_ = some l) :
    activeFeatures (handleDragEvent s e).1 =
      (activeFeatures s).map (dragFeature (fun k => (s.feature_original k).isSome)
        s.feature_original (dragAngle s e) s.pivote_1.geom.headI) := by
  have hmap := dragLoop_features_map (fun k => (s.feature_original k).isSome)
    s.feature_original (dragAngle s e) s.pivote_1.geom.headI (activeFeatures s)
    s.feature_original s.predioEdicionSelected (fun k _ => rfl)
  rw [handleDragEvent_some_eq s e l hl]
  cases hf : s.features_ with
  | some fs =>
    simp only [activeFeatures, hf] at hmap ⊢
    simpa using hmap
  | none =>
    simp only [activeFeatures, hf] at hmap ⊢
    simp only [Option.map_none', Option.isSome_none, Bool.false_eq_true, if_false]
    rw [hmap]
    cases s.lastFeature_ <;> simp

/-- An open-session drag update maps a cached non-pivot feature at
index `i` to the rotation of its cached baseline. -/
theorem drag_get_of_cached (s : RotateState) (e : MapBrowserEvent) (l : Coordinate)
    (hl : s.lastCoordinate_ = some l) (i : ℕ) (f : Feature)
    (hi : (activeFeatures s)[i]? = some f)
    (hpiv : ¬f.id = "PIVOTE_1_ID")
    (hc : (s.feature_original f.id).isSome = true) :
    (activeFeatures (handleDragEvent s e).1)[i]? =
      some (⟨f.id, rotateGeom ((s.feature_original f.id).getD f.geom)
        (dragAngle s e) s.pivote_1.geom.headI⟩ : Feature) := by
  rw [drag_activeFeatures_map s e l hl, List.getElem?_map, hi, Option.map_some']
  simp only [dragFeature, if_neg hpiv, hc, if_true]

/-- An open-session drag update maps an uncached non-pivot feature at
index `i` to the rotation of its current geometry (and the cache gets
seeded, see `dragLoop`). -/
theorem drag_get_of_uncached (s : RotateState) (e : MapBrowserEvent) (l : Coordinate)
    (hl : s.lastCoordinate_ = some l) (i : ℕ) (f : Feature)
    (hi : (activeFeatures s)[i]? = some f)
    (hpiv : ¬f.id = "PIVOTE_1_ID")
    (hc : (s.feature_original f.id).isSome = false) :
    (activeFeatures (handleDragEvent s e).1)[i]? =
      some (⟨f.id, rotateGeom f.geom (dragAngle s e) s.pivote_1.geom.headI⟩ : Feature) := by
  rw [drag_activeFeatures_map s e l hl, List.getElem?_map, hi, Option.map_some']
  simp only [dragFeature, if_neg hpiv, hc, Bool.false_eq_true, if_false]

/-- A drag update leaves every feature carrying the literal pivot id
untouched, open session or not. -/
theorem drag_get_of_pivot_id (s : RotateState) (e : MapBrowserEvent) (i : ℕ) (f : Feature)
    (hi : (activeFeatures s)[i]? = some f)
    (hpiv : f.id = "PIVOTE_1_ID") :
    (activeFeatures (handleDragEvent s e).1)[i]? = some f := by
  cases hl : s.lastCoordinate_ with
  | none => rw [handleDragEvent_none_eq s e hl]; exact hi
  | some l =>
    rw [drag_activeFeatures_map s e l hl, List.getElem?_map, hi, Option.map_some']
    simp only [dragFeature, if_pos hpiv]

/-- An open-session drag update does not change `coordinate_`. -/
theorem drag_coordinate (s : RotateState) (e : MapBrowserEvent) (l : Coordinate)
    (hl : s.lastCoordinate_ = some l) :
    (handleDragEvent s e).1.coordinate_ = s.coordinate_ := by
  rw [handleDragEvent_some_eq s e l hl]

/-- An open-session drag update does not change the pivot marker. -/
theorem drag_pivote (s : RotateState) (e : MapBrowserEvent) (l : Coordinate)
    (hl : s.lastCoordinate_ = some l) :
    (handleDragEvent s e).1.pivote_1 = s.pivote_1 := by
  rw [handleDragEvent_some_eq s e l hl]

/-- An open-session drag update advances `lastCoordinate_` to the event
coordinate, keeping the session open. -/
theorem drag_lastCoordinate (s : RotateState) (e : MapBrowserEvent) (l : Coordinate)
    (hl : s.lastCoordinate_ = some l) :
    (handleDragEvent s e).1.lastCoordinate_ = some e.coordinate := by
  rw [handleDragEvent_some_eq s e l hl]

/-- A drag update never modifies the snapshot-cache entry of a key that
was already cached when the update began. -/
theorem drag_cache_cached (s : RotateState) (e : MapBrowserEvent) (l : Coordinate)
    (hl : s.lastCoordinate_ = some l) (k : String)
    (hk : (s.feature_original k).isSome = true) :
    (handleDragEvent s e).1.feature_original k = s.feature_original k := by
  rw [handleDragEvent_some_eq s e l hl]
  exact dragLoop_cache_agrees _ _ _ _ _ _ k hk

/-- A drag update never modifies the snapshot cache at the literal
pivot key, open session or not. -/
theorem drag_cache_pivot_key (s : RotateState) (e : MapBrowserEvent) :
    (handleDragEvent s e).1.feature_original "PIVOTE_1_ID" =
      s.feature_original "PIVOTE_1_ID" := by
  cases hl : s.lastCoordinate_ with
  | none => rw [handleDragEvent_none_eq s e hl]
  | some l =>
    rw [handleDragEvent_some_eq s e l hl]
    exact dragLoop_cache_pivot_key _ _ _ _ _ _

/-- The drag angle only depends on the pivot marker, the stored press
coordinate, and the event. -/
theorem dragAngle_congr (s s' : RotateState) (e : MapBrowserEvent)
    (h1 : s'.pivote_1 = s.pivote_1) (h2 : s'.coordinate_ = s.coordinate_) :
    dragAngle s' e = dragAngle s e := by
  simp only [dragAngle, h1, h2]

end DragStateLemmas

/-- **C6.**  For an open session, a drag update sends a feature whose
id is already cached to the rotation of its *cached baseline* — a
function only of the baseline, the pivot, the stored press coordinate
and the pointer coordinate — and therefore dragging to `A`, then `B`,
then back to `A` reproduces exactly the geometry observed the first
time the pointer was at `A`. -/
theorem claim_C6_no_drift (s : RotateState) (eA eB : MapBrowserEvent) (l : Coordinate)
    (hl : s.lastCoordinate_ = some l) (i : ℕ) (f : Feature)
    (hi : (activeFeatures s)[i]? = some f)
    (hpiv : ¬f.id = "PIVOTE_1_ID")
    (hc : (s.feature_original f.id).isSome = true) :
    ((activeFeatures (handleDragEvent s eA).1)[i]?).map Feature.geom =
      some (rotateGeom ((s.feature_original f.id).getD f.geom) (dragAngle s eA)
        s.pivote_1.geom.headI) ∧
    ((activeFeatures (handleDragEvent (handleDragEvent (handleDragEvent s eA).1 eB).1
        eA).1)[i]?).map Feature.geom =
      ((activeFeatures (handleDragEvent s eA).1)[i]?).map Feature.geom := by
  obtain ⟨g0, hg0⟩ := Option.isSome_iff_exists.mp hc
  have h1 := drag_get_of_cached s eA l hl i f hi hpiv hc
  have hl1 : (handleDragEvent s eA).1.lastCoordinate_ = some eA.coordinate :=
    drag_lastCoordinate s eA l hl
  have hpi1 : (handleDragEvent s eA).1.pivote_1 = s.pivote_1 := drag_pivote s eA l hl
  have hco1 : (handleDragEvent s eA).1.coordinate_ = s.coordinate_ := drag_coordinate s eA l hl
  have hcache1 : (handleDragEvent s eA).1.feature_original f.id = s.feature_original f.id :=
    drag_cache_cached s eA l hl f.id hc
  have hc1 : ((handleDragEvent s eA).1.feature_original f.id).isSome = true := by
    rw [hcache1]; exact hc
  have h2 := drag_get_of_cached (handleDragEvent s eA).1 eB eA.coordinate hl1 i
    (⟨f.id, rotateGeom ((s.feature_original f.id).getD f.geom) (dragAngle s eA)
      s.pivote_1.geom.headI⟩ : Feature) h1 hpiv hc1
  have hl2 : (handleDragEvent (handleDragEvent s eA).1 eB).1.lastCoordinate_ =
      some eB.coordinate := drag_lastCoordinate (handleDragEvent s eA).1 eB eA.coordinate hl1
  have hpi2 : (handleDragEvent (handleDragEvent s eA).1 eB).1.pivote_1 =
      (handleDragEvent s eA).1.pivote_1 :=
    drag_pivote (handleDragEvent s eA).1 eB eA.coordinate hl1
  have hco2 : (handleDragEvent (handleDragEvent s eA).1 eB).1.coordinate_ =
      (handleDragEvent s eA).1.coordinate_ :=
    drag_coordinate (handleDragEvent s eA).1 eB eA.coordinate hl1
  have hcache2 : (handleDragEvent (handleDragEvent s eA).1 eB).1.feature_original f.id =
      (handleDragEvent s eA).1.feature_original f.id :=
    drag_cache_cached (handleDragEvent s eA).1 eB eA.coordinate hl1 f.id hc1
  have hc2 : ((handleDragEvent (handleDragEvent s eA).1 eB).1.feature_original f.id).isSome
      = true := by rw [hcache2]; exact hc1
  have h3 := drag_get_of_cached (handleDragEvent (handleDragEvent s eA).1 eB).1 eA
    eB.coordinate hl2 i
    (⟨f.id, rotateGeom (((handleDragEvent s eA).1.feature_original f.id).getD
        (rotateGeom ((s.feature_original f.id).getD f.geom) (dragAngle s eA)
          s.pivote_1.geom.headI))
      (dragAngle (handleDragEvent s eA).1 eB)
      (handleDragEvent s eA).1.pivote_1.geom.headI⟩ : Feature) h2 hpiv hc2
  have hang : dragAngle (handleDragEvent (handleDragEvent s eA).1 eB).1 eA = dragAngle s eA :=
    dragAngle_congr s _ eA (hpi2.trans hpi1) (hco2.trans hco1)
  constructor
  · rw [h1, Option.map_some']
  · rw [h3, h1, Option.map_some', Option.map_some']
    have hgeom : ((handleDragEvent (handleDragEvent s eA).1 eB).1.feature_original
        f.id).getD (rotateGeom (((handleDragEvent s eA).1.feature_original f.id).getD
          (rotateGeom ((s.feature_original f.id).getD f.geom) (dragAngle s eA)
            s.pivote_1.geom.headI))
          (dragAngle (handleDragEvent s eA).1 eB)
          (handleDragEvent s eA).1.pivote_1.geom.headI) =
        (s.feature_original f.id).getD f.geom := by
      rw [hcache2, hcache1, hg0, Option.getD_some, Option.getD_some]
    rw [hgeom, hang, hpi2, hpi1]

/-- Witness for `claim_C6_no_drift`: the concrete open-session state
with cached feature `"A"`, dragging to `(2,3)`, `(4,7)`, `(2,3)`. -/
theorem claim_C6_no_drift_witness :
    ((activeFeatures (handleDragEvent openState evA).1)[0]?).map Feature.geom =
      some (rotateGeom ((openState.feature_original featA.id).getD featA.geom)
        (dragAngle openState evA) openState.pivote_1.geom.headI) ∧
    ((activeFeatures (handleDragEvent (handleDragEvent (handleDragEvent openState evA).1
        evB).1 evA).1)[0]?).map Feature.geom =
      ((activeFeatures (handleDragEvent openState evA).1)[0]?).map Feature.geom :=
  claim_C6_no_drift openState evA evB ((0 : ℝ), (0 : ℝ)) rfl 0 featA rfl
    (by decide) rfl

/-- **C7.**  The pivot marker (identifier `'PIVOTE_1_ID'`) is excluded
from both operations: a drag update leaves every feature carrying the
marker's id untouched and never writes its cache key, and a release
never commits that key into the snapshot cache — whether or not the
marker is present in the active collection. -/
theorem claim_C7_pivot_exclusion (s : RotateState) (e : MapBrowserEvent)
    (hpid : s.pivote_1.id = "PIVOTE_1_ID") :
    (∀ (i : ℕ) (f : Feature), (activeFeatures s)[i]? = some f → f.id = s.pivote_1.id →
      (activeFeatures (handleDragEvent s e).1)[i]? = some f) ∧
    (handleDragEvent s e).1.feature_original s.pivote_1.id =
      s.feature_original s.pivote_1.id ∧
    (handleUpEvent s e).2.1.feature_original s.pivote_1.id =
      s.feature_original s.pivote_1.id := by
  refine ⟨?_, ?_, ?_⟩
  · intro i f hi hf
    exact drag_get_of_pivot_id s e i f hi (hf.trans hpid)
  · rw [hpid]
    exact drag_cache_pivot_key s e
  · rw [hpid]
    cases hl : s.lastCoordinate_ with
    | none => rw [handleUpEvent_none_eq s e hl]; exact commitLoop_pivot_key _ _
    | some lc => rw [handleUpEvent_some_eq s e lc hl]; exact commitLoop_pivot_key _ _

/-- Witness for `claim_C7_pivot_exclusion`: the concrete open state
whose collection holds a feature with the marker's id at index 1. -/
theorem claim_C7_pivot_exclusion_witness :
    (activeFeatures (handleDragEvent openState evA).1)[1]? = some featPivotLike ∧
    (handleUpEvent openState evA).2.1.feature_original openState.pivote_1.id =
      openState.feature_original openState.pivote_1.id :=
  ⟨(claim_C7_pivot_exclusion openState evA rfl).1 1 featPivotLike rfl rfl,
   (claim_C7_pivot_exclusion openState evA rfl).2.2⟩

/-- **C10.**  The pivot is identified only by the literal id string:
`refreshFeaturesPivotes` assigns `'PIVOTE_1_ID'`, and any
caller-supplied feature whose id equals that literal is excluded from
rotation and from release commits (regardless of the actual marker),
while an otherwise identical feature with a different, uncached id *is*
rotated by the same drag update. -/
theorem claim_C10_literal_pivot_id :
    (∀ s : RotateState, (refreshFeaturesPivotes s).pivote_1.id = "PIVOTE_1_ID") ∧
    (∀ (s : RotateState) (e : MapBrowserEvent) (i : ℕ) (f : Feature),
      (activeFeatures s)[i]? = some f → f.id = "PIVOTE_1_ID" →
      (activeFeatures (handleDragEvent s e).1)[i]? = some f ∧
      (handleUpEvent s e).2.1.feature_original "PIVOTE_1_ID" =
        s.feature_original "PIVOTE_1_ID") ∧
    (∀ (s : RotateState) (e : MapBrowserEvent) (l : Coordinate),
      s.lastCoordinate_ = some l →
      ∀ (i : ℕ) (f : Feature), (activeFeatures s)[i]? = some f →
        ¬f.id = "PIVOTE_1_ID" → (s.feature_original f.id).isSome = false →
        (activeFeatures (handleDragEvent s e).1)[i]? =
          some (⟨f.id, rotateGeom f.geom (dragAngle s e)
            s.pivote_1.geom.headI⟩ : Feature)) := by
  refine ⟨fun s => rfl, ?_, ?_⟩
  · intro s e i f hi hf
    refine ⟨drag_get_of_pivot_id s e i f hi hf, ?_⟩
    cases hl : s.lastCoordinate_ with
    | none => rw [handleUpEvent_none_eq s e hl]; exact commitLoop_pivot_key _ _
    | some lc => rw [handleUpEvent_some_eq s e lc hl]; exact commitLoop_pivot_key _ _
  · intro s e l hl i f hi hpiv hc
    exact drag_get_of_uncached s e l hl i f hi hpiv hc

/-- Witness for `claim_C10_literal_pivot_id`: in a state whose pivot
marker has id `"OTHER"`, the caller-supplied feature with the literal
id `'PIVOTE_1_ID'` is still excluded. -/
theorem claim_C10_literal_pivot_id_witness :
    (activeFeatures (handleDragEvent oddPivotState evA).1)[1]? = some featPivotLike ∧
    (handleUpEvent oddPivotState evA).2.1.feature_original "PIVOTE_1_ID" =
      oddPivotState.feature_original "PIVOTE_1_ID" :=
  claim_C10_literal_pivot_id.2.1 oddPivotState evA 1 featPivotLike rfl rfl

/-- **C2, counterexample.**  A release arriving with `lastCoordinate_`
null is *not* a pure no-op: it returns `false` as claimed, but the
commit loop runs before the session test, so the snapshot cache entry
of feature `"A"` (previously absent) is overwritten with a clone of the
feature's current geometry. -/
theorem claim_C2_counterexample :
    (handleUpEvent closedState evA).1 = false ∧
    closedState.feature_original "A" = none ∧
    (handleUpEvent closedState evA).2.1.feature_original "A" = some featA.geom ∧
    (handleUpEvent closedState evA).2.1.feature_original "A" ≠
      closedState.feature_original "A" := by
  refine ⟨rfl, rfl, rfl, ?_⟩
  intro hcontra
  rw [(rfl : (handleUpEvent closedState evA).2.1.feature_original "A" = some featA.geom),
    (rfl : closedState.feature_original "A" = none)] at hcontra
  exact Option.some_ne_none _ hcontra

/-- **C2, amended.**  A release with no open session returns `false`
("not consumed") and emits no event, and leaves `lastCoordinate_`,
`startCoordinate_`, the feature collection, `lastFeature_` and the
pivot marker unchanged — but it still clears `coordinate_` and runs the
commit loop: every non-pivot active feature's current geometry is
written into the snapshot cache under its id (keys not belonging to any
active feature stay unchanged). -/
theorem claim_C2_release_no_session (s : RotateState) (e : MapBrowserEvent)
    (h : s.lastCoordinate_ = none) :
    (handleUpEvent s e).1 = false ∧
    (handleUpEvent s e).2.2 = [] ∧
    (handleUpEvent s e).2.1 =
      { s with
        coordinate_ := none
        feature_original := commitLoop (activeFeatures s) s.feature_original } ∧
    (∀ k, (∀ f ∈ activeFeatures s, f.id ≠ k) →
      (handleUpEvent s e).2.1.feature_original k = s.feature_original k) ∧
    (((activeFeatures s).map Feature.id).Nodup →
      ∀ f ∈ activeFeatures s, f.id ≠ "PIVOTE_1_ID" →
        (handleUpEvent s e).2.1.feature_original f.id = some f.geom) := by
  rw [handleUpEvent_none_eq s e h]
  refine ⟨rfl, rfl, rfl, ?_, ?_⟩
  · intro k hk
    exact commitLoop_not_mem _ k hk _
  · intro hnd f hf hfp
    exact commitLoop_mem _ hnd f hf hfp _

/-- Witness for `claim_C2_release_no_session` at the concrete closed
state and event `(4,7)`. -/
theorem claim_C2_release_no_session_witness :
    (handleUpEvent closedState evB).1 = false ∧
    (handleUpEvent closedState evB).2.2 = [] ∧
    (handleUpEvent closedState evB).2.1.feature_original "Z" =
      closedState.feature_original "Z" :=
  ⟨(claim_C2_release_no_session closedState evB rfl).1,
   (claim_C2_release_no_session closedState evB rfl).2.1,
   (claim_C2_release_no_session closedState evB rfl).2.2.2.1 "Z" (by decide)⟩

/-- **C3, counterexample.**  A press satisfying the condition while a
session is open returns `false` as claimed, but it does *not* leave the
session's stored press coordinate alone: `coordinate_` (the
start-azimuth reference) is overwritten from `some (1,1)` to the new
press coordinate `some (5,5)` before the session check is made. -/
theorem claim_C3_counterexample :
    (handleDownEvent openState evDown).1 = false ∧
    openState.coordinate_ = some ((1 : ℝ), (1 : ℝ)) ∧
    (handleDownEvent openState evDown).2.1.coordinate_ = some ((5 : ℝ), (5 : ℝ)) ∧
    (handleDownEvent openState evDown).2.1.coordinate_ ≠ openState.coordinate_ := by
  refine ⟨rfl, rfl, rfl, ?_⟩
  rw [(rfl : (handleDownEvent openState evDown).2.1.coordinate_ = some ((5 : ℝ), (5 : ℝ))),
    (rfl : openState.coordinate_ = some ((1 : ℝ), (1 : ℝ)))]
  intro hcontra
  have h5 : ((5 : ℝ), (5 : ℝ)) = ((1 : ℝ), (1 : ℝ)) := Option.some.inj hcontra
  have : (5 : ℝ) = 1 := congrArg Prod.fst h5
  norm_num at this

/-- **C3, amended.**  A press event that satisfies the condition while
a session is already open is not consumed (`false`), emits no event and
leaves `lastCoordinate_`, `startCoordinate_`, the collection, the cache
and the pivot unchanged — but it *does* overwrite `coordinate_` (the
start-azimuth reference of the open session) with the new press
coordinate and `lastFeature_` with the new hit-test result, because the
source assigns both before testing `lastCoordinate_`. -/
theorem claim_C3_press_while_open (s : RotateState) (e : MapBrowserEvent)
    (ho : e.hasOriginalEvent = true) (hcnd : e.conditionHolds = true)
    (l : Coordinate) (hopen : s.lastCoordinate_ = some l) :
    handleDownEvent s e =
      (false, { s with coordinate_ := some e.coordinate, lastFeature_ := e.hit }, []) := by
  have hcond : ¬((!e.hasOriginalEvent || !e.conditionHolds) = true) := by
    simp [ho, hcnd]
  unfold handleDownEvent
  rw [if_neg hcond]
  dsimp only
  rw [hopen]

/-- Witness for `claim_C3_press_while_open` at the concrete open state
and press event `(5,5)`. -/
theorem claim_C3_press_while_open_witness :
    handleDownEvent openState evDown =
      (false,
       { openState with coordinate_ := some evDown.coordinate, lastFeature_ := evDown.hit },
       []) :=
  claim_C3_press_while_open openState evDown rfl rfl ((0 : ℝ), (0 : ℝ)) rfl

section ExtentLemmas

/-- A left fold of `min` is bounded by its initial value. -/
theorem foldl_min_le_init (l : List ℝ) : ∀ a : ℝ, l.foldl min a ≤ a := by
  induction l with
  | nil => intro a; exact le_refl a
  | cons x xs ih =>
    intro a
    exact le_trans (ih (min a x)) (min_le_left a x)

/-- A left fold of `min` is bounded by every list element. -/
theorem foldl_min_le_mem (l : List ℝ) : ∀ (a x : ℝ), x ∈ l → l.foldl min a ≤ x := by
  induction l with
  | nil => intro a x hx; exact absurd hx (List.not_mem_nil x)
  | cons y ys ih =>
    intro a x hx
    rcases List.mem_cons.mp hx with hxy | hxs
    · subst hxy
      exact le_trans (foldl_min_le_init ys (min a x)) (min_le_right a x)
    · exact ih (min a y) x hxs

/-- A left fold of `min` is the initial value or a list element. -/
theorem foldl_min_mem (l : List ℝ) : ∀ a : ℝ, l.foldl min a = a ∨ l.foldl min a ∈ l := by
  induction l with
  | nil => intro a; exact Or.inl rfl
  | cons y ys ih =>
    intro a
    rcases ih (min a y) with h | h
    · rcases min_choice a y with hm | hm
      · exact Or.inl (h.trans hm)
      · exact Or.inr (List.mem_cons.mpr (Or.inl (h.trans hm)))
    · exact Or.inr (List.mem_cons_of_mem y h)

/-- A left fold of `max` dominates its initial value. -/
theorem foldl_max_init_le (l : List ℝ) : ∀ a : ℝ, a ≤ l.foldl max a := by
  induction l with
  | nil => intro a; exact le_refl a
  | cons x xs ih =>
    intro a
    exact le_trans (le_max_left a x) (ih (max a x))

/-- A left fold of `max` dominates every list element. -/
theorem foldl_max_mem_le (l : List ℝ) : ∀ (a x : ℝ), x ∈ l → x ≤ l.foldl max a := by
  induction l with
  | nil => intro a x hx; exact absurd hx (List.not_mem_nil x)
  | cons y ys ih =>
    intro a x hx
    rcases List.mem_cons.mp hx with hxy | hxs
    · subst hxy
      exact le_trans (le_max_right a x) (foldl_max_init_le ys (max a x))
    · exact ih (max a y) x hxs

/-- A left fold of `max` is the initial value or a list element. -/
theorem foldl_max_mem (l : List ℝ) : ∀ a : ℝ, l.foldl max a = a ∨ l.foldl max a ∈ l := by
  induction l with
  | nil => intro a; exact Or.inl rfl
  | cons y ys ih =>
    intro a
    rcases ih (max a y) with h | h
    · rcases max_choice a y with hm | hm
      · exact Or.inl (h.trans hm)
      · exact Or.inr (List.mem_cons.mpr (Or.inl (h.trans hm)))
    · exact Or.inr (List.mem_cons_of_mem y h)

/-- Component-wise reading of the coordinate fold of `geometryExtent`. -/
theorem pointFold_components (ps : List Coordinate) :
    ∀ E0 : Extent,
      (ps.foldl (fun E q => ⟨min E.minX q.1, min E.minY q.2, max E.maxX q.1, max E.maxY q.2⟩)
        E0) =
      ⟨(ps.map Prod.fst).foldl min E0.minX, (ps.map Prod.snd).foldl min E0.minY,
       (ps.map Prod.fst).foldl max E0.maxX, (ps.map Prod.snd).foldl max E0.maxY⟩ := by
  induction ps with
  | nil => intro E0; rfl
  | cons p ps ih =>
    intro E0
    rw [List.foldl_cons, ih ⟨min E0.minX p.1, min E0.minY p.2, max E0.maxX p.1, max E0.maxY p.2⟩]
    rfl

/-- Component-wise reading of the extent-union fold of `sourceExtent`. -/
theorem extentFold_components (gs : List Geometry) :
    ∀ E0 : Extent,
      (gs.foldl (fun E g' =>
        let E' := geometryExtent g'
        ⟨min E.minX E'.minX, min E.minY E'.minY, max E.maxX E'.maxX, max E.maxY E'.maxY⟩) E0) =
      ⟨(gs.map fun g' => (geometryExtent g').minX).foldl min E0.minX,
       (gs.map fun g' => (geometryExtent g').minY).foldl min E0.minY,
       (gs.map fun g' => (geometryExtent g').maxX).foldl max E0.maxX,
       (gs.map fun g' => (geometryExtent g').maxY).foldl max E0.maxY⟩ := by
  induction gs with
  | nil => intro E0; rfl
  | cons g gs ih =>
    intro E0
    rw [List.foldl_cons, ih]
    rfl

/-- Bounds: the extent of a non-empty geometry bounds all its points. -/
theorem geometryExtent_bounds (g : Geometry) (hg : g ≠ []) (q : Coordinate) (hq : q ∈ g) :
    (geometryExtent g).minX ≤ q.1 ∧ q.1 ≤ (geometryExtent g).maxX ∧
    (geometryExtent g).minY ≤ q.2 ∧ q.2 ≤ (geometryExtent g).maxY := by
  obtain ⟨p, ps, rfl⟩ := List.exists_cons_of_ne_nil hg
  simp only [geometryExtent, pointFold_components]
  rcases List.mem_cons.mp hq with hqp | hqs
  · subst hqp
    exact ⟨foldl_min_le_init _ _, foldl_max_init_le _ _,
      foldl_min_le_init _ _, foldl_max_init_le _ _⟩
  · exact ⟨foldl_min_le_mem _ _ _ (List.mem_map_of_mem Prod.fst hqs),
      foldl_max_mem_le _ _ _ (List.mem_map_of_mem Prod.fst hqs),
      foldl_min_le_mem _ _ _ (List.mem_map_of_mem Prod.snd hqs),
      foldl_max_mem_le _ _ _ (List.mem_map_of_mem Prod.snd hqs)⟩

/-- Attainment: each side of a non-empty geometry's extent is realised
by one of its coordinates. -/
theorem geometryExtent_attained (g : Geometry) (hg : g ≠ []) :
    (geometryExtent g).minX ∈ g.map Prod.fst ∧ (geometryExtent g).maxX ∈ g.map Prod.fst ∧
    (geometryExtent g).minY ∈ g.map Prod.snd ∧ (geometryExtent g).maxY ∈ g.map Prod.snd := by
  obtain ⟨p, ps, rfl⟩ := List.exists_cons_of_ne_nil hg
  simp only [geometryExtent, pointFold_components]
  refine ⟨?_, ?_, ?_, ?_⟩
  · rcases foldl_min_mem (ps.map Prod.fst) p.1 with h | h
    · rw [h]; exact List.mem_cons_self _ _
    · exact List.mem_cons_of_mem _ h
  · rcases foldl_max_mem (ps.map Prod.fst) p.1 with h | h
    · rw [h]; exact List.mem_cons_self _ _
    · exact List.mem_cons_of_mem _ h
  · rcases foldl_min_mem (ps.map Prod.snd) p.2 with h | h
    · rw [h]; exact List.mem_cons_self _ _
    · exact List.mem_cons_of_mem _ h
  · rcases foldl_max_mem (ps.map Prod.snd) p.2 with h | h
    · rw [h]; exact List.mem_cons_self _ _
    · exact List.mem_cons_of_mem _ h

/-- The union extent lies below/above each member geometry's extent. -/
theorem sourceExtent_le_member (g : Geometry) (gs : List Geometry)
    (g' : Geometry) (hg' : g' ∈ g :: gs) :
    (sourceExtent (g :: gs)).minX ≤ (geometryExtent g').minX ∧
    (geometryExtent g').maxX ≤ (sourceExtent (g :: gs)).maxX ∧
    (sourceExtent (g :: gs)).minY ≤ (geometryExtent g').minY ∧
    (geometryExtent g').maxY ≤ (sourceExtent (g :: gs)).maxY := by
  simp only [sourceExtent, extentFold_components]
  rcases List.mem_cons.mp hg' with hgg | hgs
  · subst hgg
    exact ⟨foldl_min_le_init _ _, foldl_max_init_le _ _,
      foldl_min_le_init _ _, foldl_max_init_le _ _⟩
  · exact ⟨foldl_min_le_mem _ _ _ (List.mem_map_of_mem _ hgs),
      foldl_max_mem_le _ _ _ (List.mem_map_of_mem _ hgs),
      foldl_min_le_mem _ _ _ (List.mem_map_of_mem _ hgs),
      foldl_max_mem_le _ _ _ (List.mem_map_of_mem _ hgs)⟩

/-- Each side of the union extent equals the corresponding side of one
of the member geometries' extents. -/
theorem sourceExtent_attained (g : Geometry) (gs : List Geometry) :
    (∃ g' ∈ g :: gs, (sourceExtent (g :: gs)).minX = (geometryExtent g').minX) ∧
    (∃ g' ∈ g :: gs, (sourceExtent (g :: gs)).maxX = (geometryExtent g').maxX) ∧
    (∃ g' ∈ g :: gs, (sourceExtent (g :: gs)).minY = (geometryExtent g').minY) ∧
    (∃ g' ∈ g :: gs, (sourceExtent (g :: gs)).maxY = (geometryExtent g').maxY) := by
  simp only [sourceExtent, extentFold_components]
  refine ⟨?_, ?_, ?_, ?_⟩
  · rcases foldl_min_mem (gs.map fun g' => (geometryExtent g').minX) (geometryExtent g).minX
        with h | h
    · exact ⟨g, List.mem_cons_self _ _, h⟩
    · obtain ⟨g', hg', he⟩ := List.mem_map.mp h
      exact ⟨g', List.mem_cons_of_mem _ hg', he.symm⟩
  · rcases foldl_max_mem (gs.map fun g' => (geometryExtent g').maxX) (geometryExtent g).maxX
        with h | h
    · exact ⟨g, List.mem_cons_self _ _, h⟩
    · obtain ⟨g', hg', he⟩ := List.mem_map.mp h
      exact ⟨g', List.mem_cons_of_mem _ hg', he.symm⟩
  · rcases foldl_min_mem (gs.map fun g' => (geometryExtent g').minY) (geometryExtent g).minY
        with h | h
    · exact ⟨g, List.mem_cons_self _ _, h⟩
    · obtain ⟨g', hg', he⟩ := List.mem_map.mp h
      exact ⟨g', List.mem_cons_of_mem _ hg', he.symm⟩
  · rcases foldl_max_mem (gs.map fun g' => (geometryExtent g').maxY) (geometryExtent g).maxY
        with h | h
    · exact ⟨g, List.mem_cons_self _ _, h⟩
    · obtain ⟨g', hg', he⟩ := List.mem_map.mp h
      exact ⟨g', List.mem_cons_of_mem _ hg', he.symm⟩

end ExtentLemmas

/-- **C9.**  For a non-empty set of non-empty feature geometries, the
pivot computed by `refreshFeaturesPivotes` is the midpoint
`(minX + (maxX-minX)/2, minY + (maxY-minY)/2)` of the union bounding
extent: the extent bounds every coordinate of every geometry, and each
of its four sides is attained by some coordinate. -/
theorem claim_C9_pivot_center (s : RotateState) (g : Geometry) (gs : List Geometry)
    (hg : (activeFeatures s).map Feature.geom = g :: gs)
    (hne : ∀ g' ∈ g :: gs, g' ≠ []) :
    (refreshFeaturesPivotes s).pivote_1.geom =
      [((sourceExtent (g :: gs)).minX +
          ((sourceExtent (g :: gs)).maxX - (sourceExtent (g :: gs)).minX) / 2,
        (sourceExtent (g :: gs)).minY +
          ((sourceExtent (g :: gs)).maxY - (sourceExtent (g :: gs)).minY) / 2)] ∧
    (∀ q ∈ (g :: gs).flatten,
      (sourceExtent (g :: gs)).minX ≤ q.1 ∧ q.1 ≤ (sourceExtent (g :: gs)).maxX ∧
      (sourceExtent (g :: gs)).minY ≤ q.2 ∧ q.2 ≤ (sourceExtent (g :: gs)).maxY) ∧
    ((sourceExtent (g :: gs)).minX ∈ (g :: gs).flatten.map Prod.fst ∧
     (sourceExtent (g :: gs)).maxX ∈ (g :: gs).flatten.map Prod.fst ∧
     (sourceExtent (g :: gs)).minY ∈ (g :: gs).flatten.map Prod.snd ∧
     (sourceExtent (g :: gs)).maxY ∈ (g :: gs).flatten.map Prod.snd) := by
  refine ⟨?_, ?_, ?_⟩
  · simp only [refreshFeaturesPivotes]
    rw [hg]
    rfl
  · intro q hq
    obtain ⟨g', hg', hq'⟩ := List.mem_flatten.mp hq
    have hb := geometryExtent_bounds g' (hne g' hg') q hq'
    have hs := sourceExtent_le_member g gs g' hg'
    exact ⟨le_trans hs.1 hb.1, le_trans hb.2.1 hs.2.1,
      le_trans hs.2.2.1 hb.2.2.1, le_trans hb.2.2.2 hs.2.2.2⟩
  · have hat := sourceExtent_attained g gs
    refine ⟨?_, ?_, ?_, ?_⟩
    · obtain ⟨g', hg', he⟩ := hat.1
      rw [he]
      obtain ⟨q, hq, hqe⟩ := List.mem_map.mp ((geometryExtent_attained g' (hne g' hg')).1)
      rw [← hqe]
      exact List.mem_map_of_mem Prod.fst (List.mem_flatten.mpr ⟨g', hg', hq⟩)
    · obtain ⟨g', hg', he⟩ := hat.2.1
      rw [he]
      obtain ⟨q, hq, hqe⟩ := List.mem_map.mp ((geometryExtent_attained g' (hne g' hg')).2.1)
      rw [← hqe]
      exact List.mem_map_of_mem Prod.fst (List.mem_flatten.mpr ⟨g', hg', hq⟩)
    · obtain ⟨g', hg', he⟩ := hat.2.2.1
      rw [he]
      obtain ⟨q, hq, hqe⟩ := List.mem_map.mp ((geometryExtent_attained g' (hne g' hg')).2.2.1)
      rw [← hqe]
      exact List.mem_map_of_mem Prod.snd (List.mem_flatten.mpr ⟨g', hg', hq⟩)
    · obtain ⟨g', hg', he⟩ := hat.2.2.2
      rw [he]
      obtain ⟨q, hq, hqe⟩ := List.mem_map.mp ((geometryExtent_attained g' (hne g' hg')).2.2.2)
      rw [← hqe]
      exact List.mem_map_of_mem Prod.snd (List.mem_flatten.mpr ⟨g', hg', hq⟩)

/-- Witness for `claim_C9_pivot_center` at the concrete state whose
single feature has geometry `[(1,0)]`. -/
theorem claim_C9_pivot_center_witness :
    (refreshFeaturesPivotes closedState).pivote_1.geom =
      [((sourceExtent [featA.geom]).minX +
          ((sourceExtent [featA.geom]).maxX - (sourceExtent [featA.geom]).minX) / 2,
        (sourceExtent [featA.geom]).minY +
          ((sourceExtent [featA.geom]).maxY - (sourceExtent [featA.geom]).minY) / 2)] :=
  (claim_C9_pivot_center closedState featA.geom [] rfl
    (by
      intro g' hg'
      rw [List.mem_singleton] at hg'
      subst hg'
      exact List.cons_ne_nil _ _)).1
